import Mathlib

/-!
# Verification of the Laplace approximation core (`laplace/baselaplace.py`)

Shallow embedding of the configuration, fitting and prediction logic of
`BaseLaplace`, `ParametricLaplace`, `FullLaplace`, `KronLaplace` and
`FunctionalLaplace`.  Exact rational / real arithmetic replaces floating
point; Python exceptions are modelled with `Except`; the external
collaborators (the curvature backend, the data loader, torch's Cholesky
and the subset-of-data sampler) enter as explicit inputs, following the
spec's external-collaborator contract.
-/

namespace LaplaceRepo

/-- Python exception kinds raised by the embedded code paths.  The string
payloads of the Python exceptions are dropped; only the kind matters for
control flow. -/
inductive PyError
  | valueError
  | attributeError
  | runtimeError
  | indexError
  | stopIteration
  | notImplementedError
deriving DecidableEq, Repr

/-- The `likelihood` argument, validated in `BaseLaplace.__init__` to be one
of `'classification'` or `'regression'`. -/
inductive Likelihood
  | regression
  | classification
deriving DecidableEq, Repr

/-- A Python argument that may be a numpy scalar, a 0-dim tensor, a 1-dim
tensor, or a tensor of higher dimension, as the setters of `BaseLaplace`
distinguish them. -/
inductive TensorArg
  | scalar (v : ℚ)
  | tensor0d (v : ℚ)
  | tensor1d (l : List ℚ)
  | tensorNd
deriving DecidableEq, Repr

/-- Embedding of `BaseLaplace.__init__`, lines 53-54: `sigma_noise != 1` is only accepted
for the regression likelihood; otherwise `ValueError` is raised. -/
def BaseLaplace.init_sigma_check (likelihood : Likelihood) (sigma_noise : ℚ) :
    Except PyError Unit :=
  if sigma_noise ≠ 1 ∧ likelihood ≠ Likelihood.regression then
    Except.error PyError.valueError
  else
    Except.ok ()

/-- The `sigma_noise` setter (`BaseLaplace.sigma_noise`, lines 369-384).
It validates only the *shape* of the argument: a scalar or 0-dim tensor is
stored; a 1-dim tensor must have a single entry; anything else raises
`ValueError`.  The likelihood of the instance is never consulted. -/
def BaseLaplace.validate_sigma_noise (arg : TensorArg) : Except PyError ℚ :=
  match arg with
  | TensorArg.scalar v => Except.ok v
  | TensorArg.tensor0d v => Except.ok v
  | TensorArg.tensor1d l =>
      if l.length > 1 then Except.error PyError.valueError
      else match l with
        | [] => Except.error PyError.indexError
        | v :: _ => Except.ok v
  | TensorArg.tensorNd => Except.error PyError.valueError

/-- The `prior_precision` setter (`BaseLaplace.prior_precision`, lines
261-277): a scalar becomes the singleton vector `[v]`, a 0-dim tensor is
reshaped to a singleton, and a 1-dim tensor is accepted iff its length is
`1`, `n_layers` or `n_params`. -/
def BaseLaplace.validate_prior_precision (n_layers n_params : ℕ)
    (arg : TensorArg) : Except PyError (List ℚ) :=
  match arg with
  | TensorArg.scalar v => Except.ok [v]
  | TensorArg.tensor0d v => Except.ok [v]
  | TensorArg.tensor1d l =>
      if l.length = 1 ∨ l.length = n_layers ∨ l.length = n_params then
        Except.ok l
      else Except.error PyError.valueError
  | TensorArg.tensorNd => Except.error PyError.valueError

/-- The `prior_precision` setter of `KronLaplace` (lines 783-788): it first
runs the base-class setter and then additionally rejects any stored vector
whose length is neither `1` nor `n_layers`. -/
def KronLaplace.validate_prior_precision (n_layers n_params : ℕ)
    (arg : TensorArg) : Except PyError (List ℚ) :=
  match BaseLaplace.validate_prior_precision n_layers n_params arg with
  | Except.error e => Except.error e
  | Except.ok l =>
      if l.length = 1 ∨ l.length = n_layers then Except.ok l
      else Except.error PyError.valueError

/-- Per-layer expansion of a per-layer prior precision: each layer's value is
repeated over that layer's parameter count and the pieces are concatenated
(`torch.cat([prior * torch.ones(n_params) for prior, n_params in zip(...)])`). -/
def layerExpand (prior : List ℚ) (params_per_layer : List ℕ) : List ℚ :=
  (List.zipWith (fun p n => List.replicate n p) prior params_per_layer).flatten

/-- Embedding of `BaseLaplace.prior_precision_diag` (lines 214-235).  The branches are
taken in source order: length 1 (scalar, broadcast over all `n_params`
entries), length `n_params` (returned unchanged), length `n_layers`
(repeated per layer), otherwise `ValueError`.  `params_per_layer` stands for
`parameters_per_layer(self.model)`, a utility outside this file's sources:
the number of parameters of each layer, summing to `n_params`. -/
def BaseLaplace.prior_precision_diag (n_layers n_params : ℕ)
    (params_per_layer : List ℕ) (prior_precision : List ℚ) :
    Except PyError (List ℚ) :=
  if prior_precision.length = 1 then
    Except.ok (List.replicate n_params (prior_precision.headD 0))
  else if prior_precision.length = n_params then
    Except.ok prior_precision
  else if prior_precision.length = n_layers then
    Except.ok (layerExpand prior_precision params_per_layer)
  else
    Except.error PyError.valueError

section MatrixLayer

variable {p ι κ : Type*} [Fintype p] [DecidableEq p] [Fintype ι] [DecidableEq ι]
  [Fintype κ] [DecidableEq κ]

/-- Executable matrix inverse over `ℚ`: `det⁻¹ • adjugate`.  Agrees with
Mathlib's `Matrix.inv` (see `matInv_eq_inv` below) and is a genuine
two-sided inverse whenever the determinant is nonzero. -/
def matInv {n : Type*} [Fintype n] [DecidableEq n] (A : Matrix n n ℚ) :
    Matrix n n ℚ :=
  A.det⁻¹ • A.adjugate

/-- Embedding of `BaseLaplace._H_factor` (lines 386-389): `1 / sigma_noise**2 / temperature`. -/
def H_factor (sigma_noise temperature : ℚ) : ℚ :=
  1 / sigma_noise ^ 2 / temperature

/-- Embedding of `FullLaplace.posterior_precision` (lines 701-711):
`self._H_factor * self.H + torch.diag(self.prior_precision_diag)`, for a
fitted instance (`H` accumulated), with the prior precision already expanded
to its per-parameter diagonal `p0`. -/
def FullLaplace.posterior_precision (Hmat : Matrix p p ℚ) (hf : ℚ)
    (p0 : p → ℚ) : Matrix p p ℚ :=
  hf • Hmat + Matrix.diagonal p0

/-- Embedding of `FullLaplace.posterior_covariance` (lines 689-699) returns
`scale @ scale.T` with `scale = invsqrt_precision(posterior_precision)`.
Modelled from the spec: `invsqrt_precision` lives in `laplace/utils.py`,
outside the given sources; per spec section 4.2 the scale is a factor `L`
with `L·Lᵀ = precision()⁻¹`, so the covariance is the inverse of the
posterior precision. -/
def FullLaplace.posterior_covariance (Hmat : Matrix p p ℚ) (hf : ℚ)
    (p0 : p → ℚ) : Matrix p p ℚ :=
  matInv (FullLaplace.posterior_precision Hmat hf p0)

/-- Embedding of `FullLaplace.functional_variance` (lines 717-718):
`torch.einsum('ncp,pq,nkq->nck', Js, posterior_covariance, Js)`, i.e. for
the (flattened) test Jacobian `Js` the output covariance `Js Σ Jsᵀ`. -/
def FullLaplace.functional_variance (Js : Matrix κ p ℚ) (cov : Matrix p p ℚ) :
    Matrix κ κ ℚ :=
  Js * cov * Js.transpose

/-- The regression branch of `CurvatureInterface._get_full_ggn`
(`curvature.py`, line 40): `H_ggn = torch.einsum('mkp,mkq->pq', Js, Js)`.
Summed over all training batches this is `Jᵀ J` for the training Jacobian
`J` with all (data point, output) rows flattened into the row index. -/
def regression_full_H (J : Matrix ι p ℚ) : Matrix p p ℚ :=
  J.transpose * J

/-- The per-parameter GP prior used by the kernel methods
(`_kernel_batch` etc., line 1207): `prior_factor_sod / prior_precision_diag`. -/
def gpPrior (prior_factor_sod : ℚ) (p0 : p → ℚ) : p → ℚ :=
  fun i => prior_factor_sod / p0 i

/-- Embedding of `FunctionalLaplace._kernel_batch` (lines 1190-1212), non-diagonal
kernel: `torch.einsum('ap,p,bp->ab', J1.reshape(-1,P), prior, J2.reshape(-1,P))`.
Assembled over all pairs of inducing batches by `_store_K_batch` (which
mirrors the upper-triangular blocks), the full kernel is
`K_MM = J diag(prior) Jᵀ` for the flattened inducing Jacobian `J`. -/
def FunctionalLaplace.K_MM (J : Matrix ι p ℚ) (prior : p → ℚ) :
    Matrix ι ι ℚ :=
  J * Matrix.diagonal prior * J.transpose

/-- Embedding of `FunctionalLaplace._kernel_star` (lines 1216-1240), non-diagonal kernel:
`torch.einsum('bcp,p,bep->bce', Js, prior, Js)` — the test-test kernel
`K_** = J* diag(prior) J*ᵀ` (per-test-point diagonal blocks of it). -/
def FunctionalLaplace.K_star (Jstar : Matrix κ p ℚ) (prior : p → ℚ) :
    Matrix κ κ ℚ :=
  Jstar * Matrix.diagonal prior * Jstar.transpose

/-- Embedding of `FunctionalLaplace._kernel_batch_star` (lines 1242-1265), non-diagonal
kernel: `torch.einsum('bcp,p,dep->bdce', Js, prior, J2)`; concatenated over
the inducing batches this is `K_*M = J* diag(prior) Jᵀ`. -/
def FunctionalLaplace.K_star_M (Jstar : Matrix κ p ℚ) (J : Matrix ι p ℚ)
    (prior : p → ℚ) : Matrix κ ι ℚ :=
  Jstar * Matrix.diagonal prior * J.transpose

/-- Embedding of `FunctionalLaplace._build_L_inv` (lines 945-959), non-diagonal kernel:
`torch.diag(1. / diag-of-lambdas)`.  Modelled from the spec: the `lambdas`
come from `backend.gp_quantities(X, y, self._H_factor)`, which is not among
the given sources; per spec sections 3 and 4.6 each per-point block is the
Hessian of the per-data-point log-likelihood w.r.t. the model output, which
for the Gaussian regression likelihood (scaled by the supplied `H_factor`)
is `H_factor · I_C`, so `L_MM⁻¹ = diag(1/H_factor)`. -/
def FunctionalLaplace.L_inv (hf : ℚ) : Matrix ι ι ℚ :=
  Matrix.diagonal (fun _ => 1 / hf)

/-- The matrix `Σ = K_MM + L_MM⁻¹` whose Cholesky factor
`FunctionalLaplace._build_Sigma_inv` (lines 961-966) stores. -/
def FunctionalLaplace.gp_Sigma (J : Matrix ι p ℚ) (prior : p → ℚ) (hf : ℚ) :
    Matrix ι ι ℚ :=
  FunctionalLaplace.K_MM J prior + FunctionalLaplace.L_inv hf

/-- Embedding of `FunctionalLaplace._gp_posterior_variance` together with
`_build_K_star_M` (lines 1098-1137): `K_** − K_*M Σ⁻¹ K_M*`.  The source
applies `Σ⁻¹` through two triangular solves against the cached Cholesky
factor (`v = chol⁻¹ K_M*`, result `vᵀv`); torch's Cholesky solve is an
external numeric routine, and per spec section 4.6 it computes exactly the
application of `Σ⁻¹`. -/
def FunctionalLaplace.gp_posterior_variance (Jstar : Matrix κ p ℚ)
    (J : Matrix ι p ℚ) (prior : p → ℚ) (hf : ℚ) : Matrix κ κ ℚ :=
  FunctionalLaplace.K_star Jstar prior -
    FunctionalLaplace.K_star_M Jstar J prior *
      matInv (FunctionalLaplace.gp_Sigma J prior hf) *
      (FunctionalLaplace.K_star_M Jstar J prior).transpose

/-- Embedding of `ParametricLaplace._glm_predictive_distribution` (lines 574-578) for a
`FullLaplace`: the backend returns `(Js, f_mu)` and the pair
`(f_mu, functional_variance(Js))` is the GLM predictive. -/
def FullLaplace.glm_predictive (Jstar : Matrix κ p ℚ) (fstar : κ → ℚ)
    (Hmat : Matrix p p ℚ) (hf : ℚ) (p0 : p → ℚ) :
    (κ → ℚ) × Matrix κ κ ℚ :=
  (fstar, FullLaplace.functional_variance Jstar
    (FullLaplace.posterior_covariance Hmat hf p0))

/-- Embedding of `FunctionalLaplace.gp_posterior` (lines 1071-1096), non-diagonal kernel:
`self._jacobians(X_star)` returns `(Js, f_mu)` from the same backend call as
the parametric GLM predictive, and the pair
`(f_mu, gp_posterior_variance(Js))` is returned. -/
def FunctionalLaplace.gp_posterior (Jstar : Matrix κ p ℚ) (fstar : κ → ℚ)
    (J : Matrix ι p ℚ) (prior : p → ℚ) (hf : ℚ) :
    (κ → ℚ) × Matrix κ κ ℚ :=
  (fstar, FunctionalLaplace.gp_posterior_variance Jstar J prior hf)

end MatrixLayer

noncomputable section MarglikLayer

/-- The state of a fitted `ParametricLaplace` as consumed by the marginal
likelihood computation; `prior_precision_diag` is the expanded per-parameter
prior (see `BaseLaplace.prior_precision_diag`) and `log_det_posterior` the
subclass-specific `log_det_posterior_precision`. -/
structure MarglikState (P : ℕ) where
  likelihood : Likelihood
  loss : ℝ
  n_data : ℕ
  n_outputs : ℕ
  sigma_noise : ℝ
  temperature : ℝ
  map_estimate : Fin P → ℝ
  prior_mean : Fin P → ℝ
  prior_precision_diag : Fin P → ℝ

/-- Embedding of `BaseLaplace._H_factor` over the reals. -/
def MarglikState.H_factor {P : ℕ} (st : MarglikState P) : ℝ :=
  1 / st.sigma_noise ^ 2 / st.temperature

/-- Embedding of `BaseLaplace.log_likelihood` (lines 124-144): `-H_factor * loss` with,
for regression only, the Gaussian normalizer
`n_data * n_outputs * log(sigma_noise * sqrt(2π))` subtracted. -/
def MarglikState.log_likelihood {P : ℕ} (st : MarglikState P) : ℝ :=
  if st.likelihood = Likelihood.regression then
    (-st.H_factor) * st.loss -
      (st.n_data : ℝ) * (st.n_outputs : ℝ) *
        Real.log (st.sigma_noise * Real.sqrt (2 * Real.pi))
  else
    (-st.H_factor) * st.loss

/-- Embedding of `ParametricLaplace.scatter` (lines 463-475):
`(delta * prior_precision_diag) @ delta` for `delta = map_estimate - prior_mean`. -/
def MarglikState.scatter {P : ℕ} (st : MarglikState P) : ℝ :=
  Finset.univ.sum fun i =>
    ((st.map_estimate i - st.prior_mean i) * st.prior_precision_diag i) *
      (st.map_estimate i - st.prior_mean i)

/-- Embedding of `ParametricLaplace.log_det_prior_precision` (lines 477-486):
`prior_precision_diag.log().sum()`. -/
def MarglikState.log_det_prior_precision {P : ℕ} (st : MarglikState P) : ℝ :=
  Finset.univ.sum fun i => Real.log (st.prior_precision_diag i)

/-- Embedding of `ParametricLaplace.log_det_ratio` (lines 500-511), with the
subclass-supplied `log_det_posterior_precision` passed in. -/
def MarglikState.log_det_ratio {P : ℕ} (st : MarglikState P)
    (log_det_posterior : ℝ) : ℝ :=
  log_det_posterior - st.log_det_prior_precision

/-- Embedding of `ParametricLaplace._log_marginal_likelihood` (lines 513-514):
`log_likelihood - 0.5 * (log_det_ratio + scatter)`. -/
def MarglikState.log_marginal_likelihood {P : ℕ} (st : MarglikState P)
    (log_det_posterior : ℝ) : ℝ :=
  st.log_likelihood - 0.5 * (st.log_det_ratio log_det_posterior + st.scatter)

/-- A concrete fitted one-parameter regression state for the marginal
likelihood computation. -/
def stMarglik : MarglikState 1 :=
  { likelihood := Likelihood.regression
    loss := 2
    n_data := 3
    n_outputs := 1
    sigma_noise := 1
    temperature := 1
    map_estimate := fun _ => 2
    prior_mean := fun _ => 0
    prior_precision_diag := fun _ => 1 }

end MarglikLayer

section DynamicLayer

/-- One training batch `(X, y)` together with the quantities the external
curvature backend derives from it at the MAP parameters: the per-point
Jacobians `js` (shape `b × C × P`), the model outputs `f` (shape `b × C`),
and the batch loss.  Per spec section 6 the backend is an external
collaborator; its outputs are therefore data of the embedding. -/
structure Batch where
  y : List (List ℚ)
  js : List (List (List ℚ))
  f : List (List ℚ)
  lossB : ℚ
deriving DecidableEq, Repr

/-- A `DataLoader`: a finite replayable list of batches with the dataset
size (`len(train_loader.dataset)`) and the batch size. -/
structure Loader where
  batches : List Batch
  batch_size : ℕ
  n_data : ℕ
deriving DecidableEq, Repr

/-- Weighted dot product `Σᵢ aᵢ·wᵢ·bᵢ`, the elementwise-prior einsum
contraction `('ap,p,bp->ab')` at one pair of rows. -/
def dot3 (a w b : List ℚ) : ℚ :=
  (List.zipWith3 (fun x y z => x * y * z) a w b).sum

/-- Plain dot product of two rows. -/
def dotList (a b : List ℚ) : ℚ :=
  (List.zipWith (fun x y => x * y) a b).sum

/-- An `n × n` scalar diagonal matrix as a list of rows. -/
def diagMatList (n : ℕ) (v : ℚ) : List (List ℚ) :=
  (List.range n).map fun i => (List.range n).map fun j => if i = j then v else 0

/-- Elementwise matrix addition on lists of rows. -/
def matAddList (A B : List (List ℚ)) : List (List ℚ) :=
  List.zipWith (fun r s => List.zipWith (fun x y => x + y) r s) A B

/-- The state of a `FunctionalLaplace` instance: the `BaseLaplace`
configuration plus the GP quantities initialized to `None` in `__init__`
(lines 890-909) and populated by `fit`. -/
structure FunctionalState where
  likelihood : Likelihood
  sigma_noise : ℚ
  temperature : ℚ
  n_params : ℕ
  n_layers : ℕ
  params_per_layer : List ℕ
  prior_precision : List ℚ
  prior_mean : List ℚ
  map_estimate : List ℚ
  loss : ℚ
  diagonal_kernel : Bool
  M : Option ℕ
  n_outputs : Option ℕ
  n_data : Option ℕ
  batch_size : Option ℕ
  prior_factor_sod : Option ℚ
  K_MM : Option (List (List ℚ))
  Sigma_inv : Option (List (List ℚ))
  train_loader : Option Loader
  mu : Option (List (List ℚ))
deriving DecidableEq, Repr

/-- Embedding of `FunctionalLaplace._check_fit` (lines 911-913): `AttributeError` unless
`K_MM`, `Sigma_inv` and `train_loader` are all set. -/
def FunctionalLaplace.check_fit (st : FunctionalState) : Except PyError Unit :=
  if st.K_MM.isNone ∨ st.Sigma_inv.isNone ∨ st.train_loader.isNone then
    Except.error PyError.attributeError
  else Except.ok ()

/-- Embedding of `FunctionalLaplace.fit` (lines 976-1030), non-diagonal kernel.  External
collaborators enter as parameters: `sodLoader` is
`_get_SoD_data_loader` (the seeded subset-of-data sampler from
`laplace/utils.py`, outside the given sources; per spec section 4.6 it
selects an `M`-point subset of the training set), and `chol` is
`torch.linalg.cholesky`.  Modelled from the spec:
`backend.gp_quantities` is not among the given sources; per spec sections 3
and 6 it returns the batch loss, the per-point Jacobians and model outputs
(all carried by `Batch`), and per-point likelihood-curvature blocks
`lambdas` which for the supplied `H_factor` make
`L_MM⁻¹ = diag(1/H_factor)`.  The double loop over inducing batches with
`_store_K_batch` assembles exactly the flattened kernel
`K_MM[r,s] = Σₚ J[r,p]·prior[p]·J[s,p]`, written here row by row.
Note that no step of this method consults whether the instance was already
fitted; `self.loss += loss_batch` accumulates onto the pre-existing loss. -/
def FunctionalLaplace.fit (sodLoader : Loader → ℕ → Loader)
    (chol : List (List ℚ) → List (List ℚ))
    (st : FunctionalState) (train_loader : Loader) :
    Except PyError FunctionalState :=
  match train_loader.batches with
  | [] => Except.error PyError.stopIteration
  | b0 :: _ =>
    let C := (b0.f.headD []).length
    let N := train_loader.n_data
    let M := st.M.getD N
    let loader := sodLoader train_loader M
    let sod : ℚ := (M : ℚ) / (N : ℚ)
    match BaseLaplace.prior_precision_diag st.n_layers st.n_params
        st.params_per_layer st.prior_precision with
    | Except.error e => Except.error e
    | Except.ok p0 =>
      let prior := p0.map fun q => sod / q
      let rows := (loader.batches.map fun b => b.js.flatten).flatten
      let K := rows.map fun r => rows.map fun s => dot3 r prior s
      let hf := 1 / st.sigma_noise ^ 2 / st.temperature
      let Linv := diagMatList rows.length (1 / hf)
      let totalLoss := (loader.batches.map Batch.lossB).sum
      let diffMu := List.zipWith (fun a b => a - b) st.prior_mean st.map_estimate
      let muNew :=
        if st.likelihood = Likelihood.regression then
          some ((loader.batches.map fun b =>
            List.zipWith3 (fun yp fp jp =>
              List.zipWith3 (fun yc fc jc => yc - (fc + dotList jc diffMu))
                yp fp jp) b.y b.f b.js).flatten)
        else st.mu
      Except.ok { st with
        n_outputs := some C
        batch_size := some train_loader.batch_size
        n_data := some N
        M := some M
        train_loader := some loader
        prior_factor_sod := some sod
        loss := st.loss + totalLoss
        K_MM := some K
        Sigma_inv := some (chol (matAddList K Linv))
        mu := muNew }

/-- The state of a `ParametricLaplace` instance relevant to fitting and
prediction; `Hrep` is the subclass-specific curvature representation
(dense matrix, Kronecker factors, or diagonal), held in `Hacc` (`self.H`,
`None` until `fit`). -/
structure ParametricState (Hrep : Type) where
  likelihood : Likelihood
  loss : ℚ
  map_estimate : List ℚ
  Hacc : Option Hrep
  n_data : Option ℕ
  n_outputs : Option ℕ
deriving DecidableEq, Repr

/-- Embedding of `ParametricLaplace._check_fit` (lines 428-430): `AttributeError` if
`self.H is None`. -/
def ParametricLaplace.check_fit {Hrep : Type} (st : ParametricState Hrep) :
    Except PyError Unit :=
  if st.Hacc.isNone then Except.error PyError.attributeError
  else Except.ok ()

/-- Embedding of `ParametricLaplace.fit` (lines 432-461).  `initH` is the subclass's
`_init_H`, `addH` the `+` accumulation on the curvature representation, and
`curv` the subclass's `_curv_closure` (backend call returning
`(loss_batch, H_batch)` given a batch and the dataset size `N`).  The very
first step rejects a second fit: `if self.H is not None: raise
ValueError('Already fit.')`. -/
def ParametricLaplace.fit {Hrep : Type} (initH : Hrep)
    (addH : Hrep → Hrep → Hrep) (curv : Batch → ℕ → ℚ × Hrep)
    (st : ParametricState Hrep) (loader : Loader) :
    Except PyError (ParametricState Hrep) :=
  if st.Hacc.isSome then Except.error PyError.valueError
  else
    match loader.batches with
    | [] => Except.error PyError.stopIteration
    | b0 :: _ =>
      let C := (b0.f.headD []).length
      let N := loader.n_data
      let acc := loader.batches.foldl
        (fun a b => (a.1 + (curv b N).1, addH a.2 (curv b N).2))
        (st.loss, initH)
      Except.ok { st with
        loss := acc.1
        Hacc := some acc.2
        n_data := some N
        n_outputs := some C }

/-- The live parameter storage of the torch module. -/
structure NNModel where
  params : List ℚ
deriving DecidableEq, Repr

/-- Embedding of `torch.nn.utils.vector_to_parameters`: overwrite the module's live
parameters with the given vector. -/
def vector_to_parameters (v : List ℚ) (_m : NNModel) : NNModel := ⟨v⟩

/-- The loop body of `ParametricLaplace._nn_predictive_samples` (lines
580-584): for each posterior sample, write it into the live parameters and
evaluate the model (`modelEval`, the module's forward pass, which may
raise).  A raised exception propagates immediately, leaving the live
parameters at the sample that was just written. -/
def nnSampleLoop (modelEval : List ℚ → Except PyError (List ℚ)) :
    List (List ℚ) → NNModel → List (List ℚ) →
    Except PyError (List (List ℚ)) × NNModel
  | [], m, acc => (Except.ok acc.reverse, m)
  | s :: rest, m, acc =>
    let m' := vector_to_parameters s m
    match modelEval m'.params with
    | Except.error e => (Except.error e, m')
    | Except.ok fx => nnSampleLoop modelEval rest m' (fx :: acc)

/-- The stacked sampling outputs: `torch.softmax(fs, dim=-1)` is applied
for classification.  The softmax values themselves are computed by torch
(transcendental); the constructor records which post-processing applies to
the recorded raw outputs. -/
inductive NNOut
  | raw (fs : List (List ℚ))
  | softmaxed (fs : List (List ℚ))
deriving DecidableEq, Repr

/-- Embedding of `ParametricLaplace._nn_predictive_samples` (lines 580-589): run the
sampling loop, then restore the MAP estimate into the live parameters —
but only on the successful path; the restoring
`vector_to_parameters(self.map_estimate, ...)` call is only reached after
the loop completes without an exception. -/
def ParametricLaplace.nn_predictive_samples (likelihood : Likelihood)
    (modelEval : List ℚ → Except PyError (List ℚ)) (map_estimate : List ℚ)
    (samples : List (List ℚ)) (m : NNModel) :
    Except PyError NNOut × NNModel :=
  match nnSampleLoop modelEval samples m [] with
  | (Except.error e, m') => (Except.error e, m')
  | (Except.ok fs, m') =>
    let m'' := vector_to_parameters map_estimate m'
    if likelihood = Likelihood.classification then
      (Except.ok (NNOut.softmaxed fs), m'')
    else (Except.ok (NNOut.raw fs), m'')

/-- The `pred_type` argument; `otherPred` stands for any string other than
the recognized ones. -/
inductive PredType
  | glm
  | nn
  | gp
  | otherPred
deriving DecidableEq, Repr

/-- The `link_approx` argument; `otherLink` stands for any string other
than `'mc'`, `'probit'`, `'bridge'`. -/
inductive LinkApprox
  | mc
  | probit
  | bridge
  | otherLink
deriving DecidableEq, Repr

/-- The categorical predictive returned by
`BaseLaplace._classification_predictive`.  The numeric bodies (Monte-Carlo
sampling plus softmax averaging, probit scaling, Dirichlet bridge) draw
random samples and evaluate transcendental functions in torch; each
constructor records the selected approximation applied to the Gaussian
`(f_mu, f_var)` over logits. -/
inductive ClassPred
  | mcPred (f_mu : List (List ℚ)) (f_var : List (List (List ℚ))) (n_samples : ℕ)
  | probitPred (f_mu : List (List ℚ)) (f_var : List (List (List ℚ)))
  | bridgePred (f_mu : List (List ℚ)) (f_var : List (List (List ℚ)))
deriving DecidableEq, Repr

/-- Embedding of `BaseLaplace._classification_predictive` (lines 177-200): an
unrecognized link approximation raises `ValueError`; otherwise the selected
approximation is applied. -/
def BaseLaplace.classification_predictive (f_mu : List (List ℚ))
    (f_var : List (List (List ℚ))) (link : LinkApprox) (n_samples : ℕ) :
    Except PyError ClassPred :=
  match link with
  | LinkApprox.mc => Except.ok (ClassPred.mcPred f_mu f_var n_samples)
  | LinkApprox.probit => Except.ok (ClassPred.probitPred f_mu f_var)
  | LinkApprox.bridge => Except.ok (ClassPred.bridgePred f_mu f_var)
  | LinkApprox.otherLink => Except.error PyError.valueError

/-- Columnwise mean over a stack of sampled outputs (`samples.mean(dim=0)`). -/
def sampleMean (fs : List (List ℚ)) : List ℚ :=
  fs.transpose.map fun col => col.sum / (fs.length : ℚ)

/-- Columnwise unbiased variance over a stack of sampled outputs
(`samples.var(dim=0)`, torch default `unbiased=True`). -/
def sampleVar (fs : List (List ℚ)) : List ℚ :=
  fs.transpose.map fun col =>
    (col.map fun x => (x - col.sum / (fs.length : ℚ)) ^ 2).sum /
      ((fs.length : ℚ) - 1)

/-- The value returned by `ParametricLaplace.__call__`. -/
inductive CallResult
  | glmRegression (f_mu : List (List ℚ)) (f_var : List (List (List ℚ)))
  | glmClassification (pr : ClassPred)
  | nnRegression (mean variance : List ℚ)
  | nnClassification (softmaxedSamples : List (List ℚ))
deriving DecidableEq, Repr

/-- Embedding of `ParametricLaplace.__call__` (lines 516-533).  `glmPred` is the result
`(f_mu, f_var)` of `_glm_predictive_distribution` (a backend Jacobian call
plus the structure-specific `functional_variance`; see the matrix layer for
the dense instance).  After `_check_fit` and the `pred_type` validation,
the `'glm'` branch routes classification through
`_classification_predictive` with the given `link_approx`, while the
`'nn'` branch calls `_nn_predictive_samples` and never consults
`link_approx` at all. -/
def ParametricLaplace.call {Hrep : Type} (st : ParametricState Hrep)
    (glmPred : List (List ℚ) × List (List (List ℚ)))
    (modelEval : List ℚ → Except PyError (List ℚ))
    (samples : List (List ℚ)) (m : NNModel)
    (pred_type : PredType) (link : LinkApprox) (n_samples : ℕ) :
    Except PyError CallResult × NNModel :=
  if st.Hacc.isNone then (Except.error PyError.attributeError, m)
  else if pred_type ≠ PredType.glm ∧ pred_type ≠ PredType.nn then
    (Except.error PyError.valueError, m)
  else if pred_type = PredType.glm then
    match st.likelihood with
    | Likelihood.regression =>
      (Except.ok (CallResult.glmRegression glmPred.1 glmPred.2), m)
    | Likelihood.classification =>
      match BaseLaplace.classification_predictive glmPred.1 glmPred.2 link
          n_samples with
      | Except.error e => (Except.error e, m)
      | Except.ok pr => (Except.ok (CallResult.glmClassification pr), m)
  else
    match ParametricLaplace.nn_predictive_samples st.likelihood modelEval
        st.map_estimate samples m with
    | (Except.error e, m') => (Except.error e, m')
    | (Except.ok (NNOut.raw fs), m') =>
      (Except.ok (CallResult.nnRegression (sampleMean fs) (sampleVar fs)), m')
    | (Except.ok (NNOut.softmaxed fs), m') =>
      (Except.ok (CallResult.nnClassification fs), m')

/-- The per-candidate recorded score of `BaseLaplace._gridsearch`: the
validation loss on success, `np.inf` (here `⊤`) when the candidate's
evaluation raised a `RuntimeError`. -/
def gsValue (evalCand : ℚ → Except PyError ℚ) (c : ℚ) : WithTop ℚ :=
  match evalCand c with
  | Except.ok r => (r : WithTop ℚ)
  | Except.error _ => ⊤

/-- Index of the first minimal entry of a list (`np.argmin`). -/
def idxOfMin : List (WithTop ℚ) → ℕ
  | [] => 0
  | x :: xs =>
    let j := idxOfMin xs
    if x ≤ xs.getD j ⊤ then 0 else j + 1

/-- The candidate loop of `BaseLaplace._gridsearch` (lines 349-362): for
each candidate the prior precision is set and the validation loss computed
(`evalCand` bundles `validate` plus the supplied loss, both external to the
given sources); `except RuntimeError` turns that candidate's score into
`np.inf`, while an exception of any other type propagates and aborts the
search. -/
def gridsearchLoop (evalCand : ℚ → Except PyError ℚ) :
    List ℚ → List (WithTop ℚ) → Except PyError (List (WithTop ℚ))
  | [], acc => Except.ok acc.reverse
  | c :: rest, acc =>
    match evalCand c with
    | Except.ok r => gridsearchLoop evalCand rest ((r : WithTop ℚ) :: acc)
    | Except.error PyError.runtimeError =>
      gridsearchLoop evalCand rest (⊤ :: acc)
    | Except.error e => Except.error e

/-- Embedding of `BaseLaplace._gridsearch` (lines 347-363): run the candidate loop over
the interval and return `prior_precs[np.argmin(results)]` (the `prior_precs`
list accumulates exactly the iterated candidates; `np.argmin` on an empty
array raises `ValueError`). -/
def BaseLaplace.gridsearch (evalCand : ℚ → Except PyError ℚ)
    (interval : List ℚ) : Except PyError ℚ :=
  match gridsearchLoop evalCand interval [] with
  | Except.error e => Except.error e
  | Except.ok results =>
    match interval with
    | [] => Except.error PyError.valueError
    | _ => Except.ok (interval.getD (idxOfMin results) 0)

/-- The configuration slice of `BaseLaplace` state touched by the
`sigma_noise` setter: the likelihood (fixed at construction), the stored
noise, and whether a posterior scale is currently cached
(`self._posterior_scale`). -/
structure BaseConfigState where
  likelihood : Likelihood
  sigma_noise : ℚ
  posterior_scale_cached : Bool
deriving DecidableEq, Repr

/-- The `sigma_noise` setter applied to an instance (lines 369-384): it
first clears the cached posterior scale (`self._posterior_scale = None`),
then validates only the shape of the argument and stores the value.  The
instance's likelihood is never consulted. -/
def BaseLaplace.set_sigma_noise (st : BaseConfigState) (arg : TensorArg) :
    Except PyError BaseConfigState :=
  match BaseLaplace.validate_sigma_noise arg with
  | Except.error e => Except.error e
  | Except.ok v => Except.ok { st with
      sigma_noise := v
      posterior_scale_cached := false }

/-- Erase exactly the three fields `FunctionalLaplace._check_fit` inspects,
turning a fitted functional state back into an unfitted one. -/
def FunctionalState.eraseFit (st : FunctionalState) : FunctionalState :=
  { st with
    K_MM := none
    Sigma_inv := none
    train_loader := none }

/-- A concrete single-batch loader: one data point, one output, one
parameter (`y = [[3]]`, Jacobian `[[2]]`, model output `[[1]]`, batch loss
`4`). -/
def loaderOne : Loader :=
  { batches := [{ y := [[3]], js := [[[2]]], f := [[1]], lossB := 4 }]
    batch_size := 1
    n_data := 1 }

/-- A concrete already-fitted `FunctionalLaplace` regression state over one
parameter and one data point (all `fit`-populated fields set). -/
def stFunFitted : FunctionalState :=
  { likelihood := Likelihood.regression
    sigma_noise := 1
    temperature := 1
    n_params := 1
    n_layers := 1
    params_per_layer := [1]
    prior_precision := [1]
    prior_mean := [0]
    map_estimate := [0]
    loss := 4
    diagonal_kernel := false
    M := some 1
    n_outputs := some 1
    n_data := some 1
    batch_size := some 1
    prior_factor_sod := some 1
    K_MM := some [[4]]
    Sigma_inv := some [[5]]
    train_loader := some loaderOne
    mu := some [[2]] }

/-- A concrete already-fitted `ParametricLaplace` state with a rational
curvature representation. -/
def stParamFitted : ParametricState ℚ :=
  { likelihood := Likelihood.classification
    loss := 4
    map_estimate := [0]
    Hacc := some 1
    n_data := some 1
    n_outputs := some 1 }

end DynamicLayer

/-! ## Theorems -/

/-- The function `matInv` agrees with Mathlib's matrix inverse over `ℚ`. -/
theorem matInv_eq_inv {n : Type*} [Fintype n] [DecidableEq n]
    (A : Matrix n n ℚ) : matInv A = A⁻¹ := by
  rw [Matrix.inv_def, matInv, Ring.inverse_eq_inv]

/-- C3: For a fitted FullLaplace, the posterior precision is the accumulated
curvature scaled by `H_factor = 1/(sigma_noise² · temperature)` plus the
diagonal prior precision; with zero accumulated curvature it is exactly the
diagonal prior precision. -/
theorem C3_full_posterior_precision {p : Type*} [Fintype p] [DecidableEq p]
    (Hmat : Matrix p p ℚ) (sigma temp : ℚ) (p0 : p → ℚ) :
    FullLaplace.posterior_precision Hmat (H_factor sigma temp) p0 =
        (1 / (sigma ^ 2 * temp)) • Hmat + Matrix.diagonal p0 ∧
      FullLaplace.posterior_precision (0 : Matrix p p ℚ)
        (H_factor sigma temp) p0 = Matrix.diagonal p0 := by
  constructor
  · rw [FullLaplace.posterior_precision, H_factor, div_div]
  · rw [FullLaplace.posterior_precision, smul_zero, zero_add]

/-- C10: For a `KronLaplace`, a per-parameter prior precision vector (length
`n_params`, with `n_params` different from both `1` and `n_layers`) is
rejected with a `ValueError`, even though the base-class setter accepts it. -/
theorem C10_kron_prior_rejects_diagonal (n_layers n_params : ℕ) (v : List ℚ)
    (hv : v.length = n_params) (h1 : n_params ≠ 1) (hL : n_params ≠ n_layers) :
    KronLaplace.validate_prior_precision n_layers n_params
      (TensorArg.tensor1d v) = Except.error PyError.valueError := by
  simp [KronLaplace.validate_prior_precision,
    BaseLaplace.validate_prior_precision, hv, h1, hL]

/-- Witness for C10 at `n_layers = 2`, `n_params = 3`, `v = [1, 2, 3]`. -/
theorem C10_kron_prior_rejects_diagonal_witness :
    ([ (1 : ℚ), 2, 3 ].length = 3 ∧ (3 : ℕ) ≠ 1 ∧ (3 : ℕ) ≠ 2) ∧
      KronLaplace.validate_prior_precision 2 3
        (TensorArg.tensor1d [1, 2, 3]) = Except.error PyError.valueError :=
  ⟨by decide, C10_kron_prior_rejects_diagonal 2 3 [1, 2, 3] (by decide)
    (by decide) (by decide)⟩

/-- C7 counterexample: assigning `sigma_noise = 2` on a classification
instance through the setter succeeds (the stored noise becomes `2`), rather
than failing with a configuration error. -/
theorem C7_sigma_setter_counterexample :
    BaseLaplace.set_sigma_noise
        { likelihood := Likelihood.classification
          sigma_noise := 1
          posterior_scale_cached := true }
        (TensorArg.scalar 2) =
      Except.ok
        { likelihood := Likelihood.classification
          sigma_noise := 2
          posterior_scale_cached := false } := by
  rfl

/-- C7 amended: at construction, a noise scale other than `1` combined with
the classification likelihood is rejected with a `ValueError`; the
`sigma_noise` setter, however, performs no likelihood check and accepts any
scalar value on any instance. -/
theorem C7_sigma_noise_classification (sigma : ℚ) (hs : sigma ≠ 1) :
    BaseLaplace.init_sigma_check Likelihood.classification sigma =
        Except.error PyError.valueError ∧
      ∀ (st : BaseConfigState) (v : ℚ),
        BaseLaplace.set_sigma_noise st (TensorArg.scalar v) =
          Except.ok { st with
            sigma_noise := v
            posterior_scale_cached := false } := by
  refine ⟨?_, fun st v => rfl⟩
  rw [BaseLaplace.init_sigma_check, if_pos ⟨hs, by decide⟩]

/-- Witness for C7 at `sigma = 2`. -/
theorem C7_sigma_noise_classification_witness :
    (2 : ℚ) ≠ 1 ∧
      (BaseLaplace.init_sigma_check Likelihood.classification 2 =
          Except.error PyError.valueError ∧
        ∀ (st : BaseConfigState) (v : ℚ),
          BaseLaplace.set_sigma_noise st (TensorArg.scalar v) =
            Except.ok { st with
              sigma_noise := v
              posterior_scale_cached := false }) :=
  ⟨by norm_num, C7_sigma_noise_classification 2 (by norm_num)⟩

/-- C5 counterexample: with MAP estimate `[1]`, a single posterior sample
`[2]`, and a model evaluation that raises, `_nn_predictive_samples` exits
with the live parameters still holding the sample `[2]`, not the MAP. -/
theorem C5_nn_samples_counterexample :
    (ParametricLaplace.nn_predictive_samples Likelihood.regression
        (fun _ => Except.error PyError.runtimeError) [1] [[2]]
        ⟨[1]⟩).2.params = [2] ∧ ([2] : List ℚ) ≠ [1] := by
  decide

/-- C5 amended: the MAP estimate is restored into the live parameters on
every *successful* exit of `_nn_predictive_samples`; when a model
evaluation raises, the exception propagates and the parameters are left at
the sample written for the failing draw (no restoration is performed). -/
theorem C5_nn_samples_restore_on_success (likelihood : Likelihood)
    (modelEval : List ℚ → Except PyError (List ℚ)) (map_estimate : List ℚ)
    (samples : List (List ℚ)) (m : NNModel)
    (hok : (ParametricLaplace.nn_predictive_samples likelihood modelEval
      map_estimate samples m).1.isOk = true) :
    (ParametricLaplace.nn_predictive_samples likelihood modelEval
      map_estimate samples m).2.params = map_estimate := by
  rw [ParametricLaplace.nn_predictive_samples] at *
  rcases hloop : nnSampleLoop modelEval samples m [] with ⟨res, m'⟩
  rw [hloop] at hok
  cases res with
  | error e => simp [Except.isOk, Except.toBool] at hok
  | ok fs =>
      by_cases hcl : likelihood = Likelihood.classification
      · simp [hcl, vector_to_parameters]
      · simp [hcl, vector_to_parameters]

/-- Witness for C5 at a succeeding model evaluation. -/
theorem C5_nn_samples_restore_on_success_witness :
    (ParametricLaplace.nn_predictive_samples Likelihood.regression
        (fun ps => Except.ok ps) [1] [[2]] ⟨[1]⟩).1.isOk = true ∧
      (ParametricLaplace.nn_predictive_samples Likelihood.regression
        (fun ps => Except.ok ps) [1] [[2]] ⟨[1]⟩).2.params = [1] :=
  ⟨by decide, C5_nn_samples_restore_on_success Likelihood.regression
    (fun ps => Except.ok ps) [1] [[2]] ⟨[1]⟩ (by decide)⟩

/-- C4 counterexample: a concrete already-fitted `FunctionalLaplace`
instance (its `_check_fit` passes) on which a second `fit` call is *not*
rejected: it completes successfully. -/
theorem C4_functional_refit_counterexample :
    FunctionalLaplace.check_fit stFunFitted = Except.ok () ∧
      (FunctionalLaplace.fit (fun l _ => l) id stFunFitted loaderOne).isOk =
        true :=
  ⟨rfl, rfl⟩

/-- C4 amended: a second `fit` on an already-fitted `ParametricLaplace` is
rejected with a `ValueError`, but `FunctionalLaplace.fit` performs no such
check: it behaves identically on a fitted and an unfitted instance
(erasing the fitted markers does not change its result), silently
recomputing the GP quantities and accumulating the new loss onto the
existing one. -/
theorem C4_fit_reentrancy {Hrep : Type} (initH : Hrep)
    (addH : Hrep → Hrep → Hrep) (curv : Batch → ℕ → ℚ × Hrep)
    (stP : ParametricState Hrep) (loader : Loader) (hval : Hrep)
    (hfit : stP.Hacc = some hval) :
    ParametricLaplace.fit initH addH curv stP loader =
        Except.error PyError.valueError ∧
      ∀ (sodLoader : Loader → ℕ → Loader)
        (chol : List (List ℚ) → List (List ℚ)) (stF : FunctionalState)
        (tl : Loader),
        FunctionalLaplace.fit sodLoader chol stF tl =
          FunctionalLaplace.fit sodLoader chol stF.eraseFit tl := by
  constructor
  · rw [ParametricLaplace.fit, hfit]
    rfl
  · intro sodLoader chol stF tl
    obtain ⟨batches, bs, nd⟩ := tl
    cases batches with
    | nil => rfl
    | cons b rest =>
      obtain ⟨lik, sn, tp, np, nl, ppl, pp, pm, me, ls, dk, Mo, no, ndt,
        bsz, pfs, Ko, So, tlo, muo⟩ := stF
      simp only [FunctionalLaplace.fit, FunctionalState.eraseFit]

/-- Witness for C4 at the concrete fitted parametric state. -/
theorem C4_fit_reentrancy_witness :
    stParamFitted.Hacc = some 1 ∧
      (ParametricLaplace.fit (0 : ℚ) (fun a b => a + b)
          (fun _ _ => (0, 0)) stParamFitted loaderOne =
          Except.error PyError.valueError ∧
        ∀ (sodLoader : Loader → ℕ → Loader)
          (chol : List (List ℚ) → List (List ℚ)) (stF : FunctionalState)
          (tl : Loader),
          FunctionalLaplace.fit sodLoader chol stF tl =
            FunctionalLaplace.fit sodLoader chol stF.eraseFit tl) :=
  ⟨rfl, C4_fit_reentrancy (0 : ℚ) (fun a b => a + b) (fun _ _ => (0, 0))
    stParamFitted loaderOne 1 rfl⟩

/-- If every sample's model evaluation succeeds, the sampling loop of
`_nn_predictive_samples` returns successfully. -/
theorem nnSampleLoop_isOk (modelEval : List ℚ → Except PyError (List ℚ)) :
    ∀ (samples : List (List ℚ)),
      (∀ s ∈ samples, (modelEval s).isOk = true) →
      ∀ (m : NNModel) (acc : List (List ℚ)),
        (nnSampleLoop modelEval samples m acc).1.isOk = true := by
  intro samples
  induction samples with
  | nil => intro _ m acc; rfl
  | cons s rest ih =>
    intro h m acc
    have hs : (modelEval s).isOk = true := h s (by simp)
    simp only [nnSampleLoop, vector_to_parameters]
    cases he : modelEval s with
    | error e => rw [he] at hs; simp [Except.isOk, Except.toBool] at hs
    | ok fx => exact ih (fun t ht => h t (by simp [ht])) _ _

/-- C6 counterexample: on a fitted classification instance, requesting
`pred_type='nn'` with `link_approx='probit'` succeeds — no configuration
error is raised. -/
theorem C6_nn_link_counterexample :
    (ParametricLaplace.call stParamFitted ([], []) (fun ps => Except.ok ps)
        [[2]] ⟨[0]⟩ PredType.nn LinkApprox.probit 3).1.isOk = true := by
  rfl

/-- C6 amended: on a fitted instance, `pred_type='nn'` with
`link_approx='mc'` succeeds; any other `link_approx` combined with
`pred_type='nn'` is *not* rejected — the `'nn'` branch never consults
`link_approx`, so every link value yields the identical result. -/
theorem C6_nn_ignores_link {Hrep : Type} (st : ParametricState Hrep)
    (glmPred : List (List ℚ) × List (List (List ℚ)))
    (modelEval : List ℚ → Except PyError (List ℚ))
    (samples : List (List ℚ)) (m : NNModel) (n_samples : ℕ) (hval : Hrep)
    (hfit : st.Hacc = some hval)
    (heval : ∀ s ∈ samples, (modelEval s).isOk = true) :
    (ParametricLaplace.call st glmPred modelEval samples m PredType.nn
        LinkApprox.mc n_samples).1.isOk = true ∧
      ∀ link, ParametricLaplace.call st glmPred modelEval samples m
          PredType.nn link n_samples =
        ParametricLaplace.call st glmPred modelEval samples m PredType.nn
          LinkApprox.mc n_samples := by
  constructor
  · simp only [ParametricLaplace.call, hfit, Option.isNone_some,
      Bool.false_eq_true, if_false]
    rw [if_neg (by simp), if_neg (by simp)]
    rw [ParametricLaplace.nn_predictive_samples]
    rcases hl : nnSampleLoop modelEval samples m [] with ⟨res, m'⟩
    cases res with
    | error e =>
      have hok := nnSampleLoop_isOk modelEval samples heval m []
      rw [hl] at hok
      simp [Except.isOk, Except.toBool] at hok
    | ok fs =>
      by_cases hc : st.likelihood = Likelihood.classification <;>
        simp [hc, Except.isOk, Except.toBool]
  · intro link
    rfl

/-- Witness for C6 at the concrete fitted classification state. -/
theorem C6_nn_ignores_link_witness :
    stParamFitted.Hacc = some 1 ∧
      (∀ s ∈ [[(2 : ℚ)]], (Except.ok s : Except PyError (List ℚ)).isOk = true) ∧
      ((ParametricLaplace.call stParamFitted ([], []) (fun ps => Except.ok ps)
          [[2]] ⟨[0]⟩ PredType.nn LinkApprox.mc 3).1.isOk = true ∧
        ∀ link, ParametricLaplace.call stParamFitted ([], [])
            (fun ps => Except.ok ps) [[2]] ⟨[0]⟩ PredType.nn link 3 =
          ParametricLaplace.call stParamFitted ([], [])
            (fun ps => Except.ok ps) [[2]] ⟨[0]⟩ PredType.nn LinkApprox.mc 3) :=
  ⟨rfl, fun _ _ => rfl,
    C6_nn_ignores_link stParamFitted ([], []) (fun ps => Except.ok ps)
      [[2]] ⟨[0]⟩ 3 1 rfl (fun _ _ => rfl)⟩

/-- When every candidate failure is a `RuntimeError`, the grid-search loop
completes and records the per-candidate scores (`∞` for failures). -/
theorem gridsearchLoop_ok (evalCand : ℚ → Except PyError ℚ) :
    ∀ (l : List ℚ) (acc : List (WithTop ℚ)),
      (∀ c ∈ l, ∀ e, evalCand c = Except.error e → e = PyError.runtimeError) →
      gridsearchLoop evalCand l acc =
        Except.ok (acc.reverse ++ l.map (gsValue evalCand)) := by
  intro l
  induction l with
  | nil => intro acc _; simp [gridsearchLoop]
  | cons c rest ih =>
    intro acc h
    simp only [gridsearchLoop]
    cases he : evalCand c with
    | ok r =>
      show gridsearchLoop evalCand rest ((r : WithTop ℚ) :: acc) = _
      rw [ih ((r : WithTop ℚ) :: acc)
        (fun t ht => h t (List.mem_cons_of_mem _ ht))]
      have hr : gsValue evalCand c = (r : WithTop ℚ) := by simp [gsValue, he]
      simp [hr]
    | error e =>
      have he2 : e = PyError.runtimeError := h c (by simp) e he
      subst he2
      show gridsearchLoop evalCand rest ((⊤ : WithTop ℚ) :: acc) = _
      rw [ih ((⊤ : WithTop ℚ) :: acc)
        (fun t ht => h t (List.mem_cons_of_mem _ ht))]
      have hr : gsValue evalCand c = ⊤ := by simp [gsValue, he]
      simp [hr]

/-- The first-minimum index returned by `idxOfMin` indeed attains a value
less than or equal to every entry. -/
theorem idxOfMin_le :
    ∀ (l : List (WithTop ℚ)) (i : ℕ),
      l.getD (idxOfMin l) ⊤ ≤ l.getD i ⊤
  | [], i => by simp [idxOfMin]
  | x :: xs, i => by
    simp only [idxOfMin]
    by_cases hx : x ≤ xs.getD (idxOfMin xs) ⊤
    · rw [if_pos hx]
      cases i with
      | zero => simp
      | succ j =>
        simpa using le_trans hx (idxOfMin_le xs j)
    · rw [if_neg hx]
      cases i with
      | zero => simpa using le_of_lt (lt_of_not_le hx)
      | succ j => simpa using idxOfMin_le xs j

/-- C9 counterexample: a candidate evaluation failing with an exception
that is not a `RuntimeError` (here a `ValueError`) is propagated by
`_gridsearch` to the caller rather than recorded as an infinite loss. -/
theorem C9_gridsearch_counterexample :
    BaseLaplace.gridsearch (fun _ => Except.error PyError.valueError) [1] =
      Except.error PyError.valueError := by
  rfl

/-- C9 amended: candidate failures raised as `RuntimeError` are recorded as
infinite loss and the grid search continues, finally returning the
candidate whose recorded validation loss is minimal; failures of any other
exception type propagate to the caller (see the counterexample). -/
theorem C9_gridsearch_runtime_failures (evalCand : ℚ → Except PyError ℚ)
    (interval : List ℚ) (hne : interval ≠ [])
    (hrt : ∀ c ∈ interval, ∀ e,
      evalCand c = Except.error e → e = PyError.runtimeError) :
    BaseLaplace.gridsearch evalCand interval =
        Except.ok (interval.getD
          (idxOfMin (interval.map (gsValue evalCand))) 0) ∧
      ∀ i, (interval.map (gsValue evalCand)).getD
          (idxOfMin (interval.map (gsValue evalCand))) ⊤ ≤
        (interval.map (gsValue evalCand)).getD i ⊤ := by
  constructor
  · rw [BaseLaplace.gridsearch, gridsearchLoop_ok evalCand interval [] hrt]
    cases interval with
    | nil => exact absurd rfl hne
    | cons c rest => rfl
  · intro i
    exact idxOfMin_le _ i

/-- Witness for C9: every candidate fails with a `RuntimeError`; the search
continues through all candidates and returns the first one. -/
theorem C9_gridsearch_runtime_failures_witness :
    ([(3 : ℚ), 4] ≠ []) ∧
      (BaseLaplace.gridsearch (fun _ => Except.error PyError.runtimeError)
          [3, 4] =
        Except.ok ([(3 : ℚ), 4].getD
          (idxOfMin ([(3 : ℚ), 4].map
            (gsValue (fun _ => Except.error PyError.runtimeError)))) 0) ∧
      ∀ i, ([(3 : ℚ), 4].map
          (gsValue (fun _ => Except.error PyError.runtimeError))).getD
          (idxOfMin ([(3 : ℚ), 4].map
            (gsValue (fun _ => Except.error PyError.runtimeError)))) ⊤ ≤
        ([(3 : ℚ), 4].map
          (gsValue (fun _ => Except.error PyError.runtimeError))).getD i ⊤) :=
  ⟨by decide,
    C9_gridsearch_runtime_failures (fun _ => Except.error PyError.runtimeError)
      [3, 4] (by decide)
      (fun c _ e he => by
        injection he with h
        exact h.symm)⟩

/-- The per-layer expansion has one entry per parameter: its length is the
total parameter count. -/
theorem layerExpand_length :
    ∀ (prior : List ℚ) (ppl : List ℕ), prior.length = ppl.length →
      (layerExpand prior ppl).length = ppl.sum := by
  intro prior
  induction prior with
  | nil =>
    intro ppl h
    cases ppl with
    | nil => rfl
    | cons n t => simp at h
  | cons x pr ih =>
    intro ppl h
    cases ppl with
    | nil => simp at h
    | cons n t =>
      simp only [layerExpand, List.zipWith_cons_cons, List.flatten_cons,
        List.length_append, List.length_replicate, List.sum_cons]
      have := ih t (by simpa using h)
      rw [layerExpand] at this
      omega

/-- When every layer holds exactly one parameter, the per-layer expansion
is the identity. -/
theorem layerExpand_ones :
    ∀ (prior : List ℚ) (ppl : List ℕ), prior.length = ppl.length →
      (∀ x ∈ ppl, x = 1) → layerExpand prior ppl = prior := by
  intro prior
  induction prior with
  | nil =>
    intro ppl h _
    cases ppl with
    | nil => rfl
    | cons n t => simp at h
  | cons x pr ih =>
    intro ppl h hone
    cases ppl with
    | nil => simp at h
    | cons n t =>
      have hn : n = 1 := hone n (by simp)
      subst hn
      simp only [layerExpand, List.zipWith_cons_cons, List.flatten_cons,
        List.replicate_one, List.singleton_append, List.cons.injEq, true_and]
      have := ih t (by simpa using h) (fun y hy => hone y (by simp [hy]))
      rwa [layerExpand] at this

/-- A list of positive naturals is at least as long as its sum demands. -/
theorem length_le_sum_of_one_le_mem :
    ∀ (ppl : List ℕ), (∀ x ∈ ppl, 1 ≤ x) → ppl.length ≤ ppl.sum := by
  intro ppl
  induction ppl with
  | nil => intro _; simp
  | cons n t ih =>
    intro h
    have hn : 1 ≤ n := h n (by simp)
    have ht := ih (fun y hy => h y (by simp [hy]))
    simp only [List.length_cons, List.sum_cons]
    omega

/-- If positive layer sizes sum to the number of layers, every layer has
exactly one parameter. -/
theorem eq_one_of_sum_eq_length :
    ∀ (ppl : List ℕ), (∀ x ∈ ppl, 1 ≤ x) → ppl.sum = ppl.length →
      ∀ x ∈ ppl, x = 1 := by
  intro ppl
  induction ppl with
  | nil => intro _ _ x hx; simp at hx
  | cons n t ih =>
    intro hpos hsum x hx
    have hn : 1 ≤ n := hpos n (by simp)
    have ht := length_le_sum_of_one_le_mem t (fun y hy => hpos y (by simp [hy]))
    simp only [List.sum_cons, List.length_cons] at hsum
    have hn1 : n = 1 := by omega
    have hts : t.sum = t.length := by omega
    rcases List.mem_cons.mp hx with h | h
    · rw [h, hn1]
    · exact ih (fun y hy => hpos y (by simp [hy])) hts x h

/-- C8: Setting a prior precision of any accepted shape and expanding it
yields a length-`n_params` vector consistent with the input: a scalar is
broadcast to all entries, per-layer values are repeated over each layer's
parameter count, a per-parameter vector is returned unchanged, and any
other one-dimensional length is rejected with a `ValueError` by both the
setter and the expansion. -/
theorem C8_prior_precision_roundtrip (n_layers n_params : ℕ)
    (ppl : List ℕ) (q : ℚ) (l : List ℚ)
    (hlen : ppl.length = n_layers) (hsum : ppl.sum = n_params)
    (hpos : ∀ x ∈ ppl, 1 ≤ x) :
    (BaseLaplace.validate_prior_precision n_layers n_params
        (TensorArg.scalar q) = Except.ok [q] ∧
      BaseLaplace.prior_precision_diag n_layers n_params ppl [q] =
        Except.ok (List.replicate n_params q)) ∧
    (l.length = n_layers →
      BaseLaplace.prior_precision_diag n_layers n_params ppl l =
          Except.ok (layerExpand l ppl) ∧
        (layerExpand l ppl).length = n_params) ∧
    (l.length = n_params →
      BaseLaplace.prior_precision_diag n_layers n_params ppl l =
        Except.ok l) ∧
    (l.length ≠ 1 → l.length ≠ n_layers → l.length ≠ n_params →
      BaseLaplace.validate_prior_precision n_layers n_params
          (TensorArg.tensor1d l) = Except.error PyError.valueError ∧
        BaseLaplace.prior_precision_diag n_layers n_params ppl l =
          Except.error PyError.valueError) := by
  have hexp : l.length = ppl.length → layerExpand l ppl = l ∨
      (layerExpand l ppl).length = ppl.sum := fun h =>
    Or.inr (layerExpand_length l ppl h)
  refine ⟨⟨rfl, by simp [BaseLaplace.prior_precision_diag]⟩, ?_, ?_, ?_⟩
  · intro hL
    by_cases h1 : l.length = 1
    · obtain ⟨x, hx⟩ := List.length_eq_one.mp h1
      subst hx
      have hL1 : n_layers = 1 := by simpa using hL.symm
      have hppl : ppl.length = 1 := by rw [hlen, hL1]
      obtain ⟨n, hn⟩ := List.length_eq_one.mp hppl
      subst hn
      have hnp : n = n_params := by simpa using hsum
      subst hnp
      constructor
      · simp [BaseLaplace.prior_precision_diag, layerExpand]
      · simp [layerExpand]
    · by_cases h2 : l.length = n_params
      · have hlp : l.length = ppl.length := by rw [hL, hlen]
        have hones : ∀ x ∈ ppl, x = 1 := by
          refine eq_one_of_sum_eq_length ppl hpos ?_
          rw [hsum, hlen, ← hL, h2]

        have hid : layerExpand l ppl = l := layerExpand_ones l ppl hlp hones
        have hn1 : n_params ≠ 1 := fun h => h1 (h2.trans h)
        constructor
        · simp [BaseLaplace.prior_precision_diag, h1, h2, hid, hn1]
        · rw [hid, h2]
      · have hn1 : n_layers ≠ 1 := fun h => h1 (hL.trans h)
        have hn2 : n_layers ≠ n_params := fun h => h2 (hL.trans h)
        constructor
        · simp [BaseLaplace.prior_precision_diag, h1, h2, hL, hn1, hn2]
        · rw [layerExpand_length l ppl (by rw [hL, hlen]), hsum]
  · intro hP
    by_cases h1 : l.length = 1
    · obtain ⟨x, hx⟩ := List.length_eq_one.mp h1
      subst hx
      have : n_params = 1 := by simpa using hP.symm
      simp [BaseLaplace.prior_precision_diag, this]
    · have hn1 : n_params ≠ 1 := fun h => h1 (hP.trans h)
      simp [BaseLaplace.prior_precision_diag, h1, hP, hn1]
  · intro h1 hL hP
    constructor
    · simp [BaseLaplace.validate_prior_precision, h1, hL, hP]
    · simp [BaseLaplace.prior_precision_diag, h1, hL, hP]

/-- Witness for C8 at `n_layers = 2`, `n_params = 3`, layer sizes `[2, 1]`,
scalar `5`, per-layer vector `[7, 9]`. -/
theorem C8_prior_precision_roundtrip_witness :
    ([2, 1].length = 2 ∧ [2, 1].sum = 3 ∧ ∀ x ∈ [2, 1], 1 ≤ x) ∧
      ((BaseLaplace.validate_prior_precision 2 3 (TensorArg.scalar 5) =
            Except.ok [5] ∧
          BaseLaplace.prior_precision_diag 2 3 [2, 1] [5] =
            Except.ok (List.replicate 3 5)) ∧
        ([(7 : ℚ), 9].length = 2 →
          BaseLaplace.prior_precision_diag 2 3 [2, 1] [7, 9] =
              Except.ok (layerExpand [7, 9] [2, 1]) ∧
            (layerExpand [(7 : ℚ), 9] [2, 1]).length = 3) ∧
        ([(7 : ℚ), 9].length = 3 →
          BaseLaplace.prior_precision_diag 2 3 [2, 1] [7, 9] =
            Except.ok [7, 9]) ∧
        ([(7 : ℚ), 9].length ≠ 1 → [(7 : ℚ), 9].length ≠ 2 →
          [(7 : ℚ), 9].length ≠ 3 →
          BaseLaplace.validate_prior_precision 2 3
              (TensorArg.tensor1d [7, 9]) = Except.error PyError.valueError ∧
            BaseLaplace.prior_precision_diag 2 3 [2, 1] [7, 9] =
              Except.error PyError.valueError)) :=
  ⟨⟨by decide, by decide, by decide⟩,
    C8_prior_precision_roundtrip 2 3 [2, 1] 5 [7, 9] (by decide) (by decide)
      (by decide)⟩

/-- C2: For every fitted `ParametricLaplace`, the log marginal likelihood is
`log_likelihood − ½·(log_det_ratio + scatter)` with
`log_likelihood = −H_factor·loss − N·C·log(σ√(2π))` for regression and
`−H_factor·loss` for classification (`H_factor = 1/(σ²·temperature)`),
`scatter` the quadratic form of the MAP-to-prior-mean difference under the
diagonal prior precision, and `log_det_ratio` the difference of the
posterior and prior log-determinants. -/
theorem C2_log_marginal_likelihood {P : ℕ} (st : MarglikState P)
    (log_det_posterior : ℝ) (hp : ∀ i, 0 < st.prior_precision_diag i) :
    st.log_marginal_likelihood log_det_posterior =
      (if st.likelihood = Likelihood.regression then
        -(1 / (st.sigma_noise ^ 2 * st.temperature)) * st.loss -
          (st.n_data : ℝ) * (st.n_outputs : ℝ) *
            Real.log (st.sigma_noise * Real.sqrt (2 * Real.pi))
      else -(1 / (st.sigma_noise ^ 2 * st.temperature)) * st.loss) -
      (1 / 2) *
        ((log_det_posterior -
            Real.log (Matrix.diagonal st.prior_precision_diag).det) +
          Matrix.dotProduct (fun i => st.map_estimate i - st.prior_mean i)
            ((Matrix.diagonal st.prior_precision_diag).mulVec
              (fun i => st.map_estimate i - st.prior_mean i))) := by
  have hlogdet : Real.log (Matrix.diagonal st.prior_precision_diag).det =
      st.log_det_prior_precision := by
    rw [Matrix.det_diagonal,
      Real.log_prod _ _ (fun i _ => (hp i).ne'),
      MarglikState.log_det_prior_precision]
  have hscatter :
      Matrix.dotProduct (fun i => st.map_estimate i - st.prior_mean i)
        ((Matrix.diagonal st.prior_precision_diag).mulVec
          (fun i => st.map_estimate i - st.prior_mean i)) = st.scatter := by
    rw [MarglikState.scatter, Matrix.dotProduct]
    refine Finset.sum_congr rfl fun i _ => ?_
    rw [Matrix.mulVec_diagonal]
    ring
  rw [MarglikState.log_marginal_likelihood, MarglikState.log_det_ratio,
    hlogdet, hscatter, MarglikState.log_likelihood, MarglikState.H_factor,
    div_div]
  by_cases h : st.likelihood = Likelihood.regression
  · rw [if_pos h]
    norm_num
  · rw [if_neg h]
    norm_num

/-- Witness for C2 at a concrete one-parameter regression state. -/
theorem C2_log_marginal_likelihood_witness :
    (∀ i, 0 < stMarglik.prior_precision_diag i) ∧
      stMarglik.log_marginal_likelihood 7 =
        (if stMarglik.likelihood = Likelihood.regression then
          -(1 / (stMarglik.sigma_noise ^ 2 * stMarglik.temperature)) *
              stMarglik.loss -
            (stMarglik.n_data : ℝ) * (stMarglik.n_outputs : ℝ) *
              Real.log (stMarglik.sigma_noise * Real.sqrt (2 * Real.pi))
        else -(1 / (stMarglik.sigma_noise ^ 2 * stMarglik.temperature)) *
          stMarglik.loss) -
        (1 / 2) *
          ((7 - Real.log (Matrix.diagonal stMarglik.prior_precision_diag).det) +
            Matrix.dotProduct
              (fun i => stMarglik.map_estimate i - stMarglik.prior_mean i)
              ((Matrix.diagonal stMarglik.prior_precision_diag).mulVec
                (fun i => stMarglik.map_estimate i - stMarglik.prior_mean i))) :=
  ⟨fun _ => by norm_num [stMarglik],
    C2_log_marginal_likelihood stMarglik 7 (fun _ => by norm_num [stMarglik])⟩

/-- C1: For a linear(ized) regression model, with `M` equal to the full
training-set size (`prior_factor_sod = M/N = 1`) and a non-diagonal kernel,
the FunctionalLaplace GP predictive and the FullLaplace GLM predictive
built from the same training Jacobian, prior precision and noise scale
agree on every test batch: the means are equal exactly, and the variances
agree within `1/100` absolute tolerance (they are in fact equal, by the
Woodbury identity). -/
theorem C1_gp_equivalence_regression {p ι κ : Type*} [Fintype p]
    [DecidableEq p] [Fintype ι] [DecidableEq ι] [Fintype κ] [DecidableEq κ]
    (J : Matrix ι p ℚ) (Jstar : Matrix κ p ℚ) (fstar : κ → ℚ)
    (sigma temp : ℚ) (p0 : p → ℚ) (hp0 : ∀ i, p0 i ≠ 0)
    (hhf : H_factor sigma temp ≠ 0)
    (hSig : IsUnit (FunctionalLaplace.gp_Sigma J (gpPrior 1 p0)
      (H_factor sigma temp))) :
    (FullLaplace.glm_predictive Jstar fstar (regression_full_H J)
        (H_factor sigma temp) p0).1 =
      (FunctionalLaplace.gp_posterior Jstar fstar J (gpPrior 1 p0)
        (H_factor sigma temp)).1 ∧
    ∀ a b,
      |(FullLaplace.glm_predictive Jstar fstar (regression_full_H J)
          (H_factor sigma temp) p0).2 a b -
        (FunctionalLaplace.gp_posterior Jstar fstar J (gpPrior 1 p0)
          (H_factor sigma temp)).2 a b| ≤ 1 / 100 := by
  set hf := H_factor sigma temp with hfdef
  have hprior : gpPrior 1 p0 = fun i => 1 / p0 i := rfl
  have hAinv : (Matrix.diagonal p0)⁻¹ = Matrix.diagonal (fun i => 1 / p0 i) := by
    apply Matrix.inv_eq_right_inv
    rw [Matrix.diagonal_mul_diagonal]
    have h1 : (fun i => p0 i * (1 / p0 i)) = fun _ => (1 : ℚ) := by
      funext i
      rw [mul_one_div, div_self (hp0 i)]
    rw [h1, Matrix.diagonal_one]
  have hCinv : (hf • (1 : Matrix ι ι ℚ))⁻¹ =
      Matrix.diagonal (fun _ => 1 / hf) := by
    apply Matrix.inv_eq_right_inv
    rw [Matrix.smul_one_eq_diagonal, Matrix.diagonal_mul_diagonal]
    have h1 : (fun _ : ι => hf * (1 / hf)) = fun _ => (1 : ℚ) := by
      funext i
      rw [mul_one_div, div_self hhf]
    rw [h1, Matrix.diagonal_one]
  have hPP : FullLaplace.posterior_precision (regression_full_H J) hf p0 =
      Matrix.diagonal p0 + J.transpose * (hf • (1 : Matrix ι ι ℚ)) * J := by
    rw [FullLaplace.posterior_precision, regression_full_H, Matrix.mul_smul,
      Matrix.mul_one, Matrix.smul_mul, add_comm]
  have hA : IsUnit (Matrix.diagonal p0) := by
    rw [Matrix.isUnit_iff_isUnit_det, Matrix.det_diagonal, isUnit_iff_ne_zero]
    exact Finset.prod_ne_zero_iff.mpr (fun i _ => hp0 i)
  have hC : IsUnit (hf • (1 : Matrix ι ι ℚ)) := by
    rw [Matrix.smul_one_eq_diagonal, Matrix.isUnit_iff_isUnit_det,
      Matrix.det_diagonal, isUnit_iff_ne_zero]
    exact Finset.prod_ne_zero_iff.mpr (fun i _ => hhf)
  have hACeq : (hf • (1 : Matrix ι ι ℚ))⁻¹ +
      J * (Matrix.diagonal p0)⁻¹ * J.transpose =
      FunctionalLaplace.gp_Sigma J (gpPrior 1 p0) hf := by
    rw [hAinv, hCinv, FunctionalLaplace.gp_Sigma, FunctionalLaplace.K_MM,
      FunctionalLaplace.L_inv, hprior, add_comm]
  have hAC : IsUnit ((hf • (1 : Matrix ι ι ℚ))⁻¹ +
      J * (Matrix.diagonal p0)⁻¹ * J.transpose) := by
    rw [hACeq]; exact hSig
  have hcov : FullLaplace.posterior_covariance (regression_full_H J) hf p0 =
      Matrix.diagonal (fun i => 1 / p0 i) -
        Matrix.diagonal (fun i => 1 / p0 i) * J.transpose *
          matInv (FunctionalLaplace.gp_Sigma J (gpPrior 1 p0) hf) *
          J * Matrix.diagonal (fun i => 1 / p0 i) := by
    rw [FullLaplace.posterior_covariance, matInv_eq_inv, matInv_eq_inv, hPP,
      Matrix.add_mul_mul_inv_eq_sub _ _ _ _ hA hC hAC, hAinv, ← hACeq, hCinv,
      hAinv]
  have hvar : FullLaplace.functional_variance Jstar
      (FullLaplace.posterior_covariance (regression_full_H J) hf p0) =
      FunctionalLaplace.gp_posterior_variance Jstar J (gpPrior 1 p0) hf := by
    rw [FullLaplace.functional_variance, hcov,
      FunctionalLaplace.gp_posterior_variance, FunctionalLaplace.K_star,
      FunctionalLaplace.K_star_M, hprior]
    rw [Matrix.transpose_mul, Matrix.transpose_mul, Matrix.diagonal_transpose,
      Matrix.transpose_transpose]
    simp only [Matrix.mul_sub, Matrix.sub_mul, Matrix.mul_assoc]
  constructor
  · rfl
  · intro a b
    have h2 : (FullLaplace.glm_predictive Jstar fstar (regression_full_H J)
        hf p0).2 a b =
        (FunctionalLaplace.gp_posterior Jstar fstar J (gpPrior 1 p0) hf).2
          a b := by
      rw [FullLaplace.glm_predictive, FunctionalLaplace.gp_posterior]
      rw [hvar]
    rw [h2, sub_self, abs_zero]
    norm_num

/-- Witness for C1 at a one-parameter, one-data-point, one-test-point
instance: `J = [[2]]`, `J* = [[3]]`, unit prior precision, noise and
temperature. -/
theorem C1_gp_equivalence_regression_witness :
    ((∀ i : Fin 1, (fun _ : Fin 1 => (1 : ℚ)) i ≠ 0) ∧
      H_factor 1 1 ≠ 0 ∧
      IsUnit (FunctionalLaplace.gp_Sigma (Matrix.of ![![(2 : ℚ)]])
        (gpPrior 1 (fun _ : Fin 1 => 1)) (H_factor 1 1))) ∧
    ((FullLaplace.glm_predictive (Matrix.of ![![(3 : ℚ)]]) (fun _ => 5)
        (regression_full_H (Matrix.of ![![(2 : ℚ)]])) (H_factor 1 1)
        (fun _ : Fin 1 => 1)).1 =
      (FunctionalLaplace.gp_posterior (Matrix.of ![![(3 : ℚ)]]) (fun _ => 5)
        (Matrix.of ![![(2 : ℚ)]]) (gpPrior 1 (fun _ : Fin 1 => 1))
        (H_factor 1 1)).1 ∧
    ∀ a b,
      |(FullLaplace.glm_predictive (Matrix.of ![![(3 : ℚ)]]) (fun _ => 5)
          (regression_full_H (Matrix.of ![![(2 : ℚ)]])) (H_factor 1 1)
          (fun _ : Fin 1 => 1)).2 a b -
        (FunctionalLaplace.gp_posterior (Matrix.of ![![(3 : ℚ)]])
          (fun _ => 5) (Matrix.of ![![(2 : ℚ)]])
          (gpPrior 1 (fun _ : Fin 1 => 1)) (H_factor 1 1)).2 a b| ≤
        1 / 100) := by
  have hp0 : ∀ i : Fin 1, (fun _ : Fin 1 => (1 : ℚ)) i ≠ 0 := fun _ =>
    one_ne_zero
  have hhf : H_factor 1 1 ≠ 0 := by norm_num [H_factor]
  have hSig : IsUnit (FunctionalLaplace.gp_Sigma (Matrix.of ![![(2 : ℚ)]])
      (gpPrior 1 (fun _ : Fin 1 => 1)) (H_factor 1 1)) := by
    have hval : FunctionalLaplace.gp_Sigma (Matrix.of ![![(2 : ℚ)]])
        (gpPrior 1 (fun _ : Fin 1 => 1)) (H_factor 1 1) =
        Matrix.of ![![(5 : ℚ)]] := by
      ext i j
      fin_cases i
      fin_cases j
      simp [FunctionalLaplace.gp_Sigma, FunctionalLaplace.K_MM,
        FunctionalLaplace.L_inv, gpPrior, H_factor, Matrix.mul_apply,
        Fin.sum_univ_one, Matrix.diagonal_apply, Matrix.vecMul,
        Matrix.dotProduct, Matrix.vecHead, Matrix.vecTail]
      norm_num
    rw [hval, Matrix.isUnit_iff_isUnit_det, Matrix.det_fin_one,
      isUnit_iff_ne_zero]
    norm_num
  exact ⟨⟨hp0, hhf, hSig⟩,
    C1_gp_equivalence_regression (Matrix.of ![![(2 : ℚ)]])
      (Matrix.of ![![(3 : ℚ)]]) (fun _ => 5) 1 1 (fun _ => 1) hp0 hhf hSig⟩

end LaplaceRepo
